import Mathlib

set_option autoImplicit false

namespace LibkernelTestSuite

/-!
Shallow embedding of the libkernel test-suite page: the sequential
test-execution scheduler from `src/App.js` (the `TestCard` component and its
`queueTurn` rendezvous) and the test methods from the test-methods module.
The kernel itself is an external collaborator; where a claim depends on
kernel behaviour, a definition marked `Modelled from the spec:` supplies it.
-/

/-- Settlement of a promise: exactly one of `resolve` or `reject` fires first
and fixes the value. -/
inductive Settled where
  | resolved (msg : String)
  | rejected (msg : String)
deriving DecidableEq, Repr

instance instDecEqExceptString : DecidableEq (Except String String) := fun a b =>
  match a, b with
  | .ok x, .ok y =>
    if h : x = y then .isTrue (by rw [h]) else .isFalse (fun hc => h (Except.ok.inj hc))
  | .ok _, .error _ => .isFalse (fun hc => Except.noConfusion hc)
  | .error _, .ok _ => .isFalse (fun hc => Except.noConfusion hc)
  | .error x, .error y =>
    if h : x = y then .isTrue (by rw [h]) else .isFalse (fun hc => h (Except.error.inj hc))

/-- A registered test case as held in `testCardValues`: a `name` and the
settled result of its `test()` promise — `Except.ok` for fulfilment,
`Except.error` for rejection.  A test that never settles is not
representable here, so every scheduler statement below is implicitly
conditional on each test settling, as the spec's liveness clause requires. -/
structure TestCase where
  name : String
  run : Except String String
deriving DecidableEq, Repr

/-- Events observable from the scheduler: the card at a queue position starts
its test, or records the terminal settlement of that test. -/
inductive SchedEvent where
  | start (pos : Nat)
  | settle (pos : Nat) (result : Except String String)
deriving DecidableEq, Repr

/-- Scheduler state: the shared `queueTurn` counter together with the ordered
log of start/settle events produced so far. -/
structure QueueState where
  turn : Nat
  log : List SchedEvent
deriving DecidableEq, Repr

/-- `useState(0)` in `App`: the run begins with `queueTurn = 0` and nothing
recorded. -/
def initialQueueState : QueueState := { turn := 0, log := [] }

/-- One scheduler step, embedding the `useEffect` body of `TestCard`: the card
whose `queueSpot` equals `queueTurn` — the card at index `s.turn`, if any —
starts its test; both the `.then` handler and the `.catch` handler record the
settlement and then call `setQueueTurn(queueTurn + 1)`.  Returns `none` when
no card matches the current turn. -/
def schedStep (tests : List TestCase) (s : QueueState) : Option QueueState :=
  match tests[s.turn]? with
  | none => none
  | some t =>
    match t.run with
    | .ok v =>
      some { turn := s.turn + 1,
             log := s.log ++ [SchedEvent.start s.turn, SchedEvent.settle s.turn (.ok v)] }
    | .error e =>
      some { turn := s.turn + 1,
             log := s.log ++ [SchedEvent.start s.turn, SchedEvent.settle s.turn (.error e)] }

/-- Iterate `schedStep` up to `n` times, stopping once no card matches. -/
def runFrom (tests : List TestCase) : Nat → QueueState → QueueState
  | 0, s => s
  | n + 1, s =>
    match schedStep tests s with
    | none => s
    | some s2 => runFrom tests n s2

/-- A full run of the suite: start from `initialQueueState` and give every
registered card its step. -/
def runAll (tests : List TestCase) : QueueState :=
  runFrom tests tests.length initialQueueState

/-- The event log the cards of `tests` produce when the first of them holds
queue spot `base`. -/
def schedLog (tests : List TestCase) (base : Nat) : List SchedEvent :=
  match tests with
  | [] => []
  | t :: rest =>
    SchedEvent.start base :: SchedEvent.settle base t.run :: schedLog rest (base + 1)

/-- The terminal outcomes recorded in a scheduler log, in log order. -/
def settledOutcomes : List SchedEvent → List (Except String String)
  | [] => []
  | SchedEvent.start _ :: rest => settledOutcomes rest
  | SchedEvent.settle _ r :: rest => r :: settledOutcomes rest

theorem schedStep_eq_some {tests : List TestCase} {s : QueueState} {tc : TestCase}
    (h : tests[s.turn]? = some tc) :
    schedStep tests s =
      some ⟨s.turn + 1,
            s.log ++ [SchedEvent.start s.turn, SchedEvent.settle s.turn tc.run]⟩ := by
  unfold schedStep
  rw [h]
  cases hr : tc.run <;> simp [hr]

theorem schedStep_some_inv {tests : List TestCase} {s s2 : QueueState}
    (h : schedStep tests s = some s2) :
    s2.turn = s.turn + 1 ∧
    ∃ tc, tests[s.turn]? = some tc ∧
      s2.log = s.log ++ [SchedEvent.start s.turn, SchedEvent.settle s.turn tc.run] := by
  cases htc : tests[s.turn]? with
  | none => simp [schedStep, htc] at h
  | some tc =>
    rw [schedStep_eq_some htc] at h
    injection h with h
    subst h
    exact ⟨rfl, tc, rfl, rfl⟩

theorem runFrom_succ_some {tests : List TestCase} {s s2 : QueueState} {n : Nat}
    (h : schedStep tests s = some s2) :
    runFrom tests (n + 1) s = runFrom tests n s2 := by
  rw [runFrom, h]

theorem runFrom_eq (tests : List TestCase) :
    ∀ (n t : Nat) (log : List SchedEvent), t + n = tests.length →
      runFrom tests n ⟨t, log⟩ = ⟨tests.length, log ++ schedLog (tests.drop t) t⟩ := by
  intro n
  induction n with
  | zero =>
    intro t log h
    have ht : t = tests.length := by omega
    subst ht
    simp [runFrom, List.drop_length, schedLog]
  | succ n ih =>
    intro t log h
    have ht : t < tests.length := by omega
    have htc : (⟨t, log⟩ : QueueState).turn < tests.length := ht
    have hget : tests[(⟨t, log⟩ : QueueState).turn]? = some tests[t] :=
      List.getElem?_eq_getElem ht
    have hdrop : tests.drop t = tests[t] :: tests.drop (t + 1) :=
      List.drop_eq_getElem_cons ht
    rw [runFrom_succ_some (schedStep_eq_some hget)]
    rw [ih (t + 1) _ (by omega)]
    rw [hdrop]
    simp [schedLog]

theorem runAll_eq (tests : List TestCase) :
    runAll tests = ⟨tests.length, schedLog tests 0⟩ := by
  have h := runFrom_eq tests tests.length 0 [] (by omega)
  simpa [runAll, initialQueueState] using h

theorem schedLog_length (tests : List TestCase) (base : Nat) :
    (schedLog tests base).length = 2 * tests.length := by
  induction tests generalizing base with
  | nil => simp [schedLog]
  | cons t rest ih => simp [schedLog, ih]; ring

theorem schedLog_start (tests : List TestCase) :
    ∀ (base k : Nat), k < tests.length →
      (schedLog tests base)[2 * k]? = some (SchedEvent.start (base + k)) := by
  induction tests with
  | nil => intro base k hk; simp at hk
  | cons t rest ih =>
    intro base k hk
    cases k with
    | zero => simp [schedLog]
    | succ k =>
      have h2 : 2 * (k + 1) = 2 * k + 1 + 1 := by ring
      rw [h2, schedLog]
      rw [List.getElem?_cons_succ, List.getElem?_cons_succ]
      rw [ih (base + 1) k (by simpa using hk)]
      have hb : base + 1 + k = base + (k + 1) := by omega
      rw [hb]

theorem schedLog_settle (tests : List TestCase) :
    ∀ (base k : Nat) (hk : k < tests.length),
      (schedLog tests base)[2 * k + 1]? =
        some (SchedEvent.settle (base + k) (tests.get ⟨k, hk⟩).run) := by
  induction tests with
  | nil => intro base k hk; simp at hk
  | cons t rest ih =>
    intro base k hk
    cases k with
    | zero => simp [schedLog]
    | succ k =>
      have h2 : 2 * (k + 1) + 1 = 2 * k + 1 + 1 + 1 := by ring
      rw [h2, schedLog]
      rw [List.getElem?_cons_succ, List.getElem?_cons_succ]
      rw [ih (base + 1) k (by simpa using hk)]
      have hb : base + 1 + k = base + (k + 1) := by omega
      rw [hb]
      rfl

theorem settledOutcomes_schedLog (tests : List TestCase) :
    ∀ base : Nat, settledOutcomes (schedLog tests base) = tests.map (·.run) := by
  induction tests with
  | nil => intro base; simp [schedLog, settledOutcomes]
  | cons t rest ih => intro base; simp [schedLog, settledOutcomes, ih]

theorem runFrom_turn_mono (tests : List TestCase) :
    ∀ (n : Nat) (s : QueueState), s.turn ≤ (runFrom tests n s).turn := by
  intro n
  induction n with
  | zero => intro s; simp [runFrom]
  | succ n ih =>
    intro s
    rw [runFrom]
    cases h : schedStep tests s with
    | none => exact Nat.le_refl _
    | some s2 =>
      have h2 := (schedStep_some_inv h).1
      calc s.turn ≤ s2.turn := by omega
        _ ≤ (runFrom tests n s2).turn := ih s2

/-- C1: for every ordered registry of `N` test cases, the scheduler starts the
test at position `k` only after the test at position `k - 1` has settled (its
settle event sits at log index `2k - 1`, strictly before the start event of
`k` at log index `2k`); tests run in registration order with at most one in
flight, and — every test settling, as the `TestCase.run` field encodes — the
run produces exactly `N` terminal outcomes, in registration order, with the
turn counter equal to `N` at the end. -/
theorem scheduler_runs_in_order (tests : List TestCase) (k : Nat)
    (h1 : 1 ≤ k) (hk : k < tests.length) :
    (runAll tests).log[2 * k]? = some (SchedEvent.start k) ∧
    (runAll tests).log[2 * k - 1]? =
      some (SchedEvent.settle (k - 1) (tests.get ⟨k - 1, by omega⟩).run) ∧
    2 * k - 1 < 2 * k ∧
    (runAll tests).turn = tests.length ∧
    settledOutcomes (runAll tests).log = tests.map (·.run) ∧
    (settledOutcomes (runAll tests).log).length = tests.length := by
  rw [runAll_eq]
  refine ⟨?_, ?_, by omega, rfl, ?_, ?_⟩
  · have h := schedLog_start tests 0 k hk
    simpa using h
  · have hk1 : k - 1 < tests.length := by omega
    have h := schedLog_settle tests 0 (k - 1) hk1
    have h2 : 2 * (k - 1) + 1 = 2 * k - 1 := by omega
    rw [h2] at h
    simpa using h
  · exact settledOutcomes_schedLog tests 0
  · rw [settledOutcomes_schedLog tests 0]
    simp

/-- A concrete two-test registry (one fulfilling test followed by one
rejecting test) used to instantiate the scheduler theorems. -/
def sampleTests : List TestCase :=
  [{ name := "TestA", run := .ok "fine" }, { name := "TestB", run := .error "boom" }]

theorem scheduler_runs_in_order_witness :
    1 ≤ 1 ∧ 1 < sampleTests.length ∧
    ((runAll sampleTests).log[2 * 1]? = some (SchedEvent.start 1) ∧
     (runAll sampleTests).log[2 * 1 - 1]? =
       some (SchedEvent.settle (1 - 1) (sampleTests.get ⟨1 - 1, by decide⟩).run) ∧
     2 * 1 - 1 < 2 * 1 ∧
     (runAll sampleTests).turn = sampleTests.length ∧
     settledOutcomes (runAll sampleTests).log = sampleTests.map (·.run) ∧
     (settledOutcomes (runAll sampleTests).log).length = sampleTests.length) :=
  ⟨Nat.le_refl 1, by decide,
    scheduler_runs_in_order sampleTests 1 (Nat.le_refl 1) (by decide)⟩

/-- C2: the queue turn counter starts at 0 and is monotonically
non-decreasing; at most one card is current (its position equals the turn) at
any instant; and whenever a step fires, the turn advances by exactly one and
only together with the recording of the current test's settlement — the
recorded result `tc.run` covers fulfilment and rejection alike, so a failing
test still lets the next test start. -/
theorem queue_turn_invariant (tests : List TestCase) (s s2 : QueueState)
    (h : schedStep tests s = some s2) :
    initialQueueState.turn = 0 ∧
    s2.turn = s.turn + 1 ∧
    (∃ tc, tests[s.turn]? = some tc ∧
       s2.log = s.log ++ [SchedEvent.start s.turn, SchedEvent.settle s.turn tc.run]) ∧
    (∀ (n : Nat) (s0 : QueueState), s0.turn ≤ (runFrom tests n s0).turn) ∧
    (∀ i j : Nat, i = s.turn → j = s.turn → i = j) := by
  obtain ⟨hturn, htc⟩ := schedStep_some_inv h
  exact ⟨rfl, hturn, htc, runFrom_turn_mono tests, fun i j hi hj => hi.trans hj.symm⟩

/-- The scheduler state in which the rejecting second sample test holds the
turn. -/
def sampleTurnOneState : QueueState := { turn := 1, log := [] }

/-- The state one step later: the rejection was recorded and the turn still
advanced. -/
def sampleStepState : QueueState :=
  { turn := 2, log := [SchedEvent.start 1, SchedEvent.settle 1 (.error "boom")] }

theorem queue_turn_invariant_witness :
    schedStep sampleTests sampleTurnOneState = some sampleStepState ∧
    (initialQueueState.turn = 0 ∧
     sampleStepState.turn = sampleTurnOneState.turn + 1 ∧
     (∃ tc, sampleTests[sampleTurnOneState.turn]? = some tc ∧
        sampleStepState.log = sampleTurnOneState.log ++
          [SchedEvent.start sampleTurnOneState.turn,
           SchedEvent.settle sampleTurnOneState.turn tc.run]) ∧
     (∀ (n : Nat) (s0 : QueueState), s0.turn ≤ (runFrom sampleTests n s0).turn) ∧
     (∀ i j : Nat, i = sampleTurnOneState.turn → j = sampleTurnOneState.turn → i = j)) :=
  ⟨rfl, queue_turn_invariant sampleTests sampleTurnOneState sampleStepState rfl⟩

/-!
`TestMsgSpeedSequential5k` and its inner helper `sendSequentialMessages`.
The external `kernel.testMessage()` results are supplied by an oracle mapping
the number of messages already issued to the settlement of the next call.
-/

/-- `sendSequentialMessages` from `TestMsgSpeedSequential5k`: with `remaining`
messages still to send and `idx` messages already issued, it resolves with
"all messages resolved" at `remaining = 0`; otherwise it issues message `idx`
and, on fulfilment, calls itself with `remaining - 1`, while on rejection it
rejects the whole test with that error.  Alongside the settlement it returns
the ordered list of message indices actually issued. -/
def sendSequentialMessages (oracle : Nat → Except String String) :
    Nat → Nat → Settled × List Nat
  | 0, _ => (.resolved "all messages resolved", [])
  | remaining + 1, idx =>
    match oracle idx with
    | .ok _ =>
      let rest := sendSequentialMessages oracle remaining (idx + 1)
      (rest.1, idx :: rest.2)
    | .error e => (.rejected e, [idx])

/-- `TestMsgSpeedSequential5k`: kick off the recursion with 5000 messages
remaining and none issued. -/
def TestMsgSpeedSequential5k (oracle : Nat → Except String String) :
    Settled × List Nat :=
  sendSequentialMessages oracle 5000 0

theorem sendSequentialMessages_all_ok (oracle : Nat → Except String String) :
    ∀ (n idx : Nat), (∀ i, idx ≤ i → i < idx + n → ∃ v, oracle i = .ok v) →
      sendSequentialMessages oracle n idx =
        (.resolved "all messages resolved", List.range' idx n) := by
  intro n
  induction n with
  | zero => intro idx _; simp [sendSequentialMessages, List.range']
  | succ n ih =>
    intro idx h
    obtain ⟨v, hv⟩ := h idx (Nat.le_refl idx) (by omega)
    rw [sendSequentialMessages, hv]
    rw [ih (idx + 1) (fun i h1 h2 => h i (by omega) (by omega))]
    rw [List.range'_succ]

theorem sendSequentialMessages_first_fail (oracle : Nat → Except String String) :
    ∀ (k n idx : Nat) (e : String), k < n →
      (∀ j, idx ≤ j → j < idx + k → ∃ v, oracle j = .ok v) →
      oracle (idx + k) = .error e →
      sendSequentialMessages oracle n idx = (.rejected e, List.range' idx (k + 1)) := by
  intro k
  induction k with
  | zero =>
    intro n idx e hk _ hfail
    cases n with
    | zero => omega
    | succ n =>
      rw [sendSequentialMessages]
      rw [show idx + 0 = idx from rfl] at hfail
      rw [hfail]
      rfl
  | succ k ih =>
    intro n idx e hk hok hfail
    cases n with
    | zero => omega
    | succ n =>
      obtain ⟨v, hv⟩ := hok idx (Nat.le_refl idx) (by omega)
      rw [sendSequentialMessages, hv]
      rw [ih n (idx + 1) e (by omega)
            (fun j h1 h2 => hok j (by omega) (by omega))
            (by rw [show idx + 1 + k = idx + (k + 1) from by omega]; exact hfail)]
      simp [List.range'_succ]

/-- C9: when the 5000 one-shot test messages are issued strictly sequentially
and every one of them settles successfully, the recursion terminates and the
whole test resolves after exactly 5000 `testMessage` calls, issued in
submission order `0, 1, ..., 4999` with no index dropped or duplicated. -/
theorem msg_speed_sequential_5k_ok (oracle : Nat → Except String String)
    (h : ∀ i, i < 5000 → ∃ v, oracle i = .ok v) :
    (TestMsgSpeedSequential5k oracle).1 = .resolved "all messages resolved" ∧
    (TestMsgSpeedSequential5k oracle).2 = List.range' 0 5000 ∧
    (TestMsgSpeedSequential5k oracle).2.length = 5000 ∧
    (TestMsgSpeedSequential5k oracle).2.Nodup := by
  have hrun := sendSequentialMessages_all_ok oracle 5000 0
    (fun i _ h2 => h i (by omega))
  refine ⟨?_, ?_, ?_, ?_⟩ <;>
    simp [TestMsgSpeedSequential5k, hrun, List.nodup_range']

/-- The everywhere-fulfilling test-message oracle. -/
def okOracle : Nat → Except String String := fun _ => .ok "test message received"

theorem msg_speed_sequential_5k_ok_witness :
    (∀ i, i < 5000 → ∃ v, okOracle i = .ok v) ∧
    ((TestMsgSpeedSequential5k okOracle).1 = .resolved "all messages resolved" ∧
     (TestMsgSpeedSequential5k okOracle).2 = List.range' 0 5000 ∧
     (TestMsgSpeedSequential5k okOracle).2.length = 5000 ∧
     (TestMsgSpeedSequential5k okOracle).2.Nodup) :=
  ⟨fun _ _ => ⟨"test message received", rfl⟩,
    msg_speed_sequential_5k_ok okOracle (fun _ _ => ⟨"test message received", rfl⟩)⟩

/-- C10: in the sequential 5000-message test, if message `i` (counting from
zero) rejects while every earlier message fulfilled, the whole test rejects
with exactly that error, and only messages `0 .. i` were issued — the
remaining `5000 - (i + 1)` messages are never sent. -/
theorem msg_speed_sequential_5k_abandons_on_failure
    (oracle : Nat → Except String String) (i : Nat) (e : String)
    (hi : i < 5000) (hfail : oracle i = .error e)
    (hok : ∀ j, j < i → ∃ v, oracle j = .ok v) :
    (TestMsgSpeedSequential5k oracle).1 = .rejected e ∧
    (TestMsgSpeedSequential5k oracle).2 = List.range' 0 (i + 1) ∧
    (TestMsgSpeedSequential5k oracle).2.length = i + 1 := by
  have hrun := sendSequentialMessages_first_fail oracle i 5000 0 e hi
    (fun j _ h2 => hok j (by omega)) (by simpa using hfail)
  refine ⟨?_, ?_, ?_⟩ <;> simp [TestMsgSpeedSequential5k, hrun]

/-- A test-message oracle whose third message (index 2) rejects. -/
def failingOracle : Nat → Except String String := fun i =>
  if i = 2 then .error "kernel connection lost" else .ok "test message received"

theorem msg_speed_sequential_5k_abandons_on_failure_witness :
    (2 < 5000 ∧ failingOracle 2 = .error "kernel connection lost" ∧
     (∀ j, j < 2 → ∃ v, failingOracle j = .ok v)) ∧
    ((TestMsgSpeedSequential5k failingOracle).1 = .rejected "kernel connection lost" ∧
     (TestMsgSpeedSequential5k failingOracle).2 = List.range' 0 (2 + 1) ∧
     (TestMsgSpeedSequential5k failingOracle).2.length = 2 + 1) :=
  ⟨⟨by omega, rfl, fun j hj => ⟨"test message received",
      by unfold failingOracle; rw [if_neg (by omega)]⟩⟩,
    msg_speed_sequential_5k_abandons_on_failure failingOracle 2 "kernel connection lost"
      (by omega) rfl
      (fun j hj => ⟨"test message received",
        by unfold failingOracle; rw [if_neg (by omega)]⟩)⟩

/-!
`TestResponseUpdates`: the streaming `connectModule` call.  A streaming frame
is a structured payload that may carry an `eventProgress` field; the kernel
and test module are external, so the frame sequence the spec prescribes for
`testResponseUpdate` is modelled from the spec below.
-/

/-- A structured payload frame as seen by `receiveUpdate` and the terminal
handler: `eventProgress` is `none` when the field is absent. -/
structure Frame where
  eventProgress : Option Nat
deriving DecidableEq, Repr

/-- First-settlement bookkeeping: a later `reject` never displaces an earlier
one. -/
def firstRej (old : Option String) (new : String) : Option String :=
  match old with
  | some r => some r
  | none => some new

/-- One invocation of `receiveUpdate` on state `(progress, first rejection)`:
a frame without `eventProgress` rejects; a frame whose `eventProgress` is not
`progress + 25` rejects; otherwise `progress` advances by 25.  `progress`
keeps advancing even after a rejection, as the mutable JS variable does. -/
def updStep (st : Nat × Option String) (data : Frame) : Nat × Option String :=
  match data.eventProgress with
  | none => (st.1, firstRej st.2 "eventProgress not provided in response")
  | some p =>
    if p = st.1 + 25 then (st.1 + 25, st.2)
    else (st.1, firstRej st.2 "progress messages appear to be arriving out of order")

/-- Deliver every streaming frame, in arrival order, to `receiveUpdate`. -/
def runUpdates (frames : List Frame) : Nat × Option String :=
  frames.foldl updStep (0, none)

/-- `TestResponseUpdates` from the test-methods module, as a function of the
frames the kernel delivered to `receiveUpdate` (all before the terminal
response, as `connectModule` guarantees) and of the settled terminal
response.  A rejection raised inside `receiveUpdate` settles the test first;
otherwise the terminal handler checks that `progress` reached 75 and that the
response carries `eventProgress = 100`. -/
def TestResponseUpdates (frames : List Frame) (terminal : Except String Frame) : Settled :=
  match (runUpdates frames).2 with
  | some r => .rejected r
  | none =>
    match terminal with
    | .error err => .rejected ("testResponseUpdate failed: " ++ err)
    | .ok data =>
      if (runUpdates frames).1 ≠ 75 then
        .rejected "response was received before responseUpdates were completed"
      else
        match data.eventProgress with
        | none => .rejected "expecting response to contain eventProgress"
        | some p =>
          if p ≠ 100 then .rejected "expecting response eventProgress to be 100"
          else .resolved "received all messages in order and final message was a response"

/-- Modelled from the spec: the kernel and the test module are external to
this repository; per the spec, `connect` on `testResponseUpdate` produces
streaming update frames with progress values 25, 50, 75. -/
def testResponseUpdateFrames : List Frame :=
  [{ eventProgress := some 25 }, { eventProgress := some 50 }, { eventProgress := some 75 }]

/-- Modelled from the spec: the terminal response of `testResponseUpdate`
carries progress 100. -/
def testResponseUpdateTerminal : Frame := { eventProgress := some 100 }

/-- Events observable on a `connectModule` call, in delivery order. -/
inductive ConnEvent where
  | update (frame : Frame)
  | terminal (frame : Frame)
deriving DecidableEq, Repr

/-- Modelled from the spec: `connect` delivers every streaming update frame,
in arrival order, strictly before the terminal response — never interleaved
or reordered relative to it. -/
def connectDelivery (updates : List Frame) (final : Frame) : List ConnEvent :=
  updates.map ConnEvent.update ++ [ConnEvent.terminal final]

/-- The `eventProgress` values `25, 50, ..., 25 * n` expected after `p`. -/
def progs (p : Nat) : Nat → List (Option Nat)
  | 0 => []
  | n + 1 => some (p + 25) :: progs (p + 25) n

theorem updStep_snd_some (frames : List Frame) :
    ∀ (q : Nat) (r : String), (frames.foldl updStep (q, some r)).2 = some r := by
  induction frames with
  | nil => intro q r; rfl
  | cons f fs ih =>
    intro q r
    rw [List.foldl_cons]
    cases hf : f.eventProgress with
    | none => simp only [updStep, hf, firstRej]; exact ih q r
    | some p =>
      by_cases hp : p = q + 25
      · simp only [updStep, hf, if_pos hp]; exact ih (q + 25) r
      · simp only [updStep, hf, if_neg hp, firstRej]; exact ih q r

theorem runUpdates_none_inv (frames : List Frame) :
    ∀ p : Nat, (frames.foldl updStep (p, none)).2 = none →
      (frames.foldl updStep (p, none)).1 = p + 25 * frames.length ∧
      frames.map (·.eventProgress) = progs p frames.length := by
  induction frames with
  | nil => intro p _; simp [progs]
  | cons f fs ih =>
    intro p hnone
    rw [List.foldl_cons] at hnone ⊢
    cases hf : f.eventProgress with
    | none =>
      simp only [updStep, hf, firstRej] at hnone
      rw [updStep_snd_some] at hnone
      cases hnone
    | some q =>
      by_cases hq : q = p + 25
      · simp only [updStep, hf, if_pos hq] at hnone ⊢
        obtain ⟨ih1, ih2⟩ := ih (p + 25) hnone
        refine ⟨?_, ?_⟩
        · rw [ih1]
          simp only [List.length_cons]
          ring
        · simp only [List.map_cons, List.length_cons, hf, hq]
          rw [show progs p (fs.length + 1) =
                some (p + 25) :: progs (p + 25) fs.length from rfl]
          rw [ih2]
      · simp only [updStep, hf, if_neg hq, firstRej] at hnone
        rw [updStep_snd_some] at hnone
        cases hnone

theorem responseUpdates_resolved_iff (frames : List Frame) (t : Frame) :
    TestResponseUpdates frames (.ok t) =
        .resolved "received all messages in order and final message was a response" ↔
      (frames.map (·.eventProgress) = [some 25, some 50, some 75] ∧
       t.eventProgress = some 100) := by
  constructor
  · intro h
    rw [TestResponseUpdates] at h
    cases hsnd : (runUpdates frames).2 with
    | some r => simp only [hsnd] at h; cases h
    | none =>
      simp only [hsnd] at h
      obtain ⟨h1, h2⟩ := runUpdates_none_inv frames 0 hsnd
      by_cases h75 : (runUpdates frames).1 ≠ 75
      · simp only [if_pos h75] at h; cases h
      · simp only [if_neg h75] at h
        have h75e : (runUpdates frames).1 = 75 := not_not.mp h75
        have hlen : frames.length = 3 := by
          have hfold : (runUpdates frames).1 = 0 + 25 * frames.length := h1
          omega
        cases ht : t.eventProgress with
        | none => simp only [ht] at h; cases h
        | some q =>
          simp only [ht] at h
          by_cases hq : q ≠ 100
          · simp only [if_pos hq] at h; cases h
          · have hq100 : q = 100 := not_not.mp hq
            refine ⟨?_, by rw [hq100]⟩
            rw [h2, hlen]
            rfl
  · intro ⟨hmap, ht⟩
    match frames with
    | [] => simp at hmap
    | [f1] => simp at hmap
    | [f1, f2] => simp at hmap
    | f1 :: f2 :: f3 :: f4 :: fs => simp at hmap
    | [f1, f2, f3] =>
      obtain ⟨ep1⟩ := f1
      obtain ⟨ep2⟩ := f2
      obtain ⟨ep3⟩ := f3
      obtain ⟨ept⟩ := t
      simp only [List.map_cons, List.map_nil, List.cons.injEq, and_true] at hmap
      obtain ⟨h1, h2, h3⟩ := hmap
      dsimp only at h1 h2 h3 ht
      subst h1
      subst h2
      subst h3
      subst ht
      decide

/-- C3: on a connect-style call to `testResponseUpdate`, the update frames
are delivered to `onUpdate` in exactly the order 25, 50, 75 — each frame
exceeding the previous by 25 — all strictly before the terminal response,
whose `eventProgress` is exactly 100; the delivery schedule never places the
terminal response before or between update frames; and the test resolves on
precisely those traces. -/
theorem response_updates_ordered :
    connectDelivery testResponseUpdateFrames testResponseUpdateTerminal =
      [ConnEvent.update { eventProgress := some 25 },
       ConnEvent.update { eventProgress := some 50 },
       ConnEvent.update { eventProgress := some 75 },
       ConnEvent.terminal { eventProgress := some 100 }] ∧
    TestResponseUpdates testResponseUpdateFrames (.ok testResponseUpdateTerminal) =
      .resolved "received all messages in order and final message was a response" ∧
    ∀ (frames : List Frame) (t : Frame),
      TestResponseUpdates frames (.ok t) =
          .resolved "received all messages in order and final message was a response" ↔
        (frames.map (·.eventProgress) = [some 25, some 50, some 75] ∧
         t.eventProgress = some 100) :=
  ⟨rfl, by decide, responseUpdates_resolved_iff⟩

/-!
Module-call model.  The kernel is an external collaborator of this
repository, so its validation and dispatch rules are modelled from the spec;
the module identifier literals and every test embedding below come from the
test-methods source.
-/

/-- Content-derived identifier of the kernel test-suite module (source
literal `kernelTestSuite`). -/
def kernelTestSuite : String := "AQCPJ9WRzMpKQHIsPo8no3XJpUydcDCjw7VJy8lG1MCZ3g"

/-- The test-suite identifier with its 19th character changed, so the digest
resolves to nothing (source literal `moduleDoesNotExist`). -/
def moduleDoesNotExist : String := "AQCPJ9WRzMpKQHIsPo9no3XJpUydcDCjw7VJy8lG1MCZ3g"

/-- The test-suite identifier with its final character dropped: a malformed
skylink (source literal `moduleMalformed`). -/
def moduleMalformed : String := "AQCPJ9WRzMpKQHIsPo8no3XJpUydcDCjw7VJy8lG1MCZ3"

/-- Content-derived identifier of the helper module (source literal
`helperModule`). -/
def helperModule : String := "AQCoaLP6JexdZshDDZRQaIwN3B7DqFjlY7byMikR7u1IEA"

/-- Modelled from the spec: who issues a kernel call — the web page itself,
or a module relaying on behalf of a parent caller (a call-chain hop). -/
inductive Caller where
  | page (origin : String)
  | relayed (via : String) (parent : Caller)
deriving DecidableEq, Repr

/-- Modelled from the spec: DomainAttribution equals the true origin of the
call chain's root caller, so each relay hop passes its parent's attribution
through unchanged. -/
def domainAttribution : Caller → String
  | .page origin => origin
  | .relayed _ parent => domainAttribution parent

/-- Whether the immediate caller is the target module itself. -/
def isModuleItself (c : Caller) (target : String) : Bool :=
  match c with
  | .page _ => false
  | .relayed via _ => via == target

/-- Structured request payload; only the `seed` field is exercised by the
claims. `none` models an absent field. -/
structure ReqData where
  seed : Option (List Nat) := none
deriving DecidableEq, Repr

/-- Structured response payload; `none` models an absent field. -/
structure RespData where
  seed : Option (List Nat) := none
  domain : Option String := none
deriving DecidableEq, Repr

/-- Modelled from the spec: kernel session state — the registered modules and
the fixed 16-byte per-module seed the kernel assigned for this user and
session. -/
structure KernelModel where
  modules : List String
  seeds : String → Fin 16 → Nat

/-- Well-formed ModuleIdentifier: a fixed-length content-derived encoding.
The well-formed identifiers observed in the source are 46 characters long;
`moduleMalformed` has 45. -/
def wellFormedIdentifier (target : String) : Bool :=
  target.length == 46

/-- Method names privileged to the kernel-module channel; the spec's seed
confidentiality rule rejects them for any caller that is not the module
itself. -/
def privilegedMethods : List String := ["presentSeed"]

/-- Modelled from the spec: `callModule` validation and dispatch.  An absent
method is rejected before dispatch regardless of target validity
(`MethodRequired`); a syntactically malformed target fails distinctly
(`MalformedTarget`) from a well-formed target with no resolvable module
(`ModuleNotFound`); privileged methods are rejected (`ForbiddenMethod`) for
callers other than the module itself; `viewSeed` returns the per-module
seed; `mirrorDomain` returns the caller's domain attribution. -/
def callModule (k : KernelModel) (caller : Caller) (target : String)
    (method : Option String) (_data : ReqData) : Except String RespData :=
  match method with
  | none => .error "MethodRequired"
  | some m =>
    if !wellFormedIdentifier target then .error "MalformedTarget"
    else if !k.modules.contains target then .error "ModuleNotFound"
    else if privilegedMethods.contains m && !isModuleItself caller target then
      .error "ForbiddenMethod"
    else if m == "viewSeed" then .ok { seed := some (List.ofFn (k.seeds target)) }
    else if m == "mirrorDomain" then .ok { domain := some (domainAttribution caller) }
    else .ok {}

/-- A concrete kernel session hosting the test-suite and helper modules. -/
def testKernel : KernelModel :=
  { modules := [kernelTestSuite, helperModule], seeds := fun _ _ => 7 }

theorem callModule_viewSeed (k : KernelModel) (c : Caller) (d : ReqData)
    (hreg : kernelTestSuite ∈ k.modules) :
    callModule k c kernelTestSuite (some "viewSeed") d =
      .ok { seed := some (List.ofFn (k.seeds kernelTestSuite)) } := by
  have hwf : wellFormedIdentifier kernelTestSuite = true := by decide
  simp [callModule, hwf, privilegedMethods]
  exact hreg

theorem callModule_mirrorDomain (k : KernelModel) (c : Caller) (d : ReqData)
    (hreg : kernelTestSuite ∈ k.modules) :
    callModule k c kernelTestSuite (some "mirrorDomain") d =
      .ok { domain := some (domainAttribution c) } := by
  have hwf : wellFormedIdentifier kernelTestSuite = true := by decide
  simp [callModule, hwf, privilegedMethods]
  exact hreg

theorem callModule_notFound (k : KernelModel) (c : Caller) (m : String) (d : ReqData)
    (habs : moduleDoesNotExist ∉ k.modules) :
    callModule k c moduleDoesNotExist (some m) d = .error "ModuleNotFound" := by
  have hwf : wellFormedIdentifier moduleDoesNotExist = true := by decide
  simp [callModule, hwf]
  exact fun hmem => absurd hmem habs

theorem callModule_malformed (k : KernelModel) (c : Caller) (m : String) (d : ReqData) :
    callModule k c moduleMalformed (some m) d = .error "MalformedTarget" := by
  have hwf : wellFormedIdentifier moduleMalformed = false := by decide
  simp [callModule, hwf]

theorem callModule_presentSeed_page (k : KernelModel) (origin : String) (d : ReqData)
    (hreg : kernelTestSuite ∈ k.modules) :
    callModule k (.page origin) kernelTestSuite (some "presentSeed") d =
      .error "ForbiddenMethod" := by
  have hwf : wellFormedIdentifier kernelTestSuite = true := by decide
  simp [callModule, hwf, privilegedMethods, isModuleItself]
  exact hreg

/-- `TestModuleHasSeed` from the test-methods module, as a function of the
settled `callModule` response: rejects when `data.seed` is absent or its
length differs from 16. -/
def TestModuleHasSeed (resp : Except String RespData) : Settled :=
  match resp with
  | .error err => .rejected err
  | .ok data =>
    match data.seed with
    | none => .rejected "viewSeed in test module did not return a data.seed"
    | some s =>
      if s.length ≠ 16 then
        .rejected "viewSeed in test module returned a seed with a non-standard length"
      else .resolved "viewSeed appears to have returned a standard seed"

/-- `TestMissingModule` from the test-methods module: the resolve and reject
roles are flipped, so a kernel rejection is the success outcome. -/
def TestMissingModule (resp : Except String RespData) : Settled :=
  match resp with
  | .ok _ => .rejected "kernel is supposed to return an error"
  | .error err => .resolved err

/-- `TestMalformedModule` from the test-methods module: likewise flipped. -/
def TestMalformedModule (resp : Except String RespData) : Settled :=
  match resp with
  | .ok _ => .rejected "kernel is supposed to return an error"
  | .error err => .resolved err

/-- `TestModulePresentSeed` from the test-methods module: the reject and
resolve get flipped because the test wants to trigger an error. -/
def TestModulePresentSeed (resp : Except String RespData) : Settled :=
  match resp with
  | .ok _ => .rejected "expecting an error for using a forbidden method"
  | .error err => .resolved ("received expected error: " ++ err)

/-- `TestMirrorDomain` from the test-methods module: the response must carry
a `domain` equal to `window.location.hostname`. -/
def TestMirrorDomain (hostname : String) (resp : Except String RespData) : Settled :=
  match resp with
  | .error err => .rejected err
  | .ok data =>
    match data.domain with
    | none => .rejected "mirrorDomain did not return a domain"
    | some dom =>
      if dom ≠ hostname then
        .rejected ("wrong domain\nexpected: " ++ hostname ++ "\ngot: " ++ dom)
      else .resolved ("got expected domain: " ++ dom)

/-- C4: for every viewSeed query to the test module, the seed returned is
exactly 16 bytes long, and repeated queries within one session — here with
arbitrary, possibly different, payloads — return the very same seed value;
the embedded `TestModuleHasSeed` accordingly resolves. -/
theorem view_seed_sixteen_bytes (k : KernelModel) (c : Caller) (d d2 : ReqData)
    (hreg : kernelTestSuite ∈ k.modules) :
    (∃ s, callModule k c kernelTestSuite (some "viewSeed") d = .ok { seed := some s } ∧
       s.length = 16 ∧
       callModule k c kernelTestSuite (some "viewSeed") d2 = .ok { seed := some s }) ∧
    TestModuleHasSeed (callModule k c kernelTestSuite (some "viewSeed") d) =
      .resolved "viewSeed appears to have returned a standard seed" := by
  refine ⟨⟨List.ofFn (k.seeds kernelTestSuite), callModule_viewSeed k c d hreg, by simp,
    callModule_viewSeed k c d2 hreg⟩, ?_⟩
  rw [callModule_viewSeed k c d hreg]
  simp [TestModuleHasSeed]

theorem view_seed_sixteen_bytes_witness :
    kernelTestSuite ∈ testKernel.modules ∧
    ((∃ s, callModule testKernel (.page "tester.example") kernelTestSuite
         (some "viewSeed") {} = .ok { seed := some s } ∧
       s.length = 16 ∧
       callModule testKernel (.page "tester.example") kernelTestSuite
         (some "viewSeed") { seed := some [9] } = .ok { seed := some s }) ∧
     TestModuleHasSeed (callModule testKernel (.page "tester.example") kernelTestSuite
         (some "viewSeed") {}) =
       .resolved "viewSeed appears to have returned a standard seed") :=
  ⟨by decide,
    view_seed_sixteen_bytes testKernel (.page "tester.example") {} { seed := some [9] }
      (by decide)⟩

/-- C5: a call whose target is syntactically malformed and a call whose
target is well-formed but resolves to no module both reject, and the two
rejection reasons are distinguishable from each other; the embedded flipped
tests therefore both resolve, with distinct recorded reasons. -/
theorem missing_and_malformed_distinct (k : KernelModel) (c : Caller) (d : ReqData)
    (habs : moduleDoesNotExist ∉ k.modules) :
    callModule k c moduleDoesNotExist (some "viewSeed") d = .error "ModuleNotFound" ∧
    callModule k c moduleMalformed (some "viewSeed") d = .error "MalformedTarget" ∧
    "ModuleNotFound" ≠ "MalformedTarget" ∧
    TestMissingModule (callModule k c moduleDoesNotExist (some "viewSeed") d) =
      .resolved "ModuleNotFound" ∧
    TestMalformedModule (callModule k c moduleMalformed (some "viewSeed") d) =
      .resolved "MalformedTarget" := by
  have h1 := callModule_notFound k c "viewSeed" d habs
  have h2 := callModule_malformed k c "viewSeed" d
  refine ⟨h1, h2, by decide, ?_, ?_⟩
  · rw [h1]
    rfl
  · rw [h2]
    rfl

theorem missing_and_malformed_distinct_witness :
    moduleDoesNotExist ∉ testKernel.modules ∧
    (callModule testKernel (.page "tester.example") moduleDoesNotExist
        (some "viewSeed") {} = .error "ModuleNotFound" ∧
     callModule testKernel (.page "tester.example") moduleMalformed
        (some "viewSeed") {} = .error "MalformedTarget" ∧
     "ModuleNotFound" ≠ "MalformedTarget" ∧
     TestMissingModule (callModule testKernel (.page "tester.example") moduleDoesNotExist
        (some "viewSeed") {}) = .resolved "ModuleNotFound" ∧
     TestMalformedModule (callModule testKernel (.page "tester.example") moduleMalformed
        (some "viewSeed") {}) = .resolved "MalformedTarget") :=
  ⟨by decide,
    missing_and_malformed_distinct testKernel (.page "tester.example") {} (by decide)⟩

/-- C6: for every seed payload, a presentSeed call issued to the test module
by the web page — a caller that is not the module itself — rejects with
`ForbiddenMethod`; the embedded flipped test records that rejection as its
success and records any fulfilment of the call as its failure. -/
theorem present_seed_forbidden (k : KernelModel) (origin : String) (seedBytes : List Nat)
    (hreg : kernelTestSuite ∈ k.modules) :
    callModule k (.page origin) kernelTestSuite (some "presentSeed")
        { seed := some seedBytes } = .error "ForbiddenMethod" ∧
    TestModulePresentSeed (callModule k (.page origin) kernelTestSuite (some "presentSeed")
        { seed := some seedBytes }) =
      .resolved ("received expected error: " ++ "ForbiddenMethod") ∧
    (∀ resp : RespData, TestModulePresentSeed (.ok resp) =
       .rejected "expecting an error for using a forbidden method") ∧
    (∀ err : String, TestModulePresentSeed (.error err) =
       .resolved ("received expected error: " ++ err)) := by
  have h1 := callModule_presentSeed_page k origin { seed := some seedBytes } hreg
  exact ⟨h1, by rw [h1]; rfl, fun _ => rfl, fun _ => rfl⟩

theorem present_seed_forbidden_witness :
    kernelTestSuite ∈ testKernel.modules ∧
    (callModule testKernel (.page "tester.example") kernelTestSuite (some "presentSeed")
        { seed := some (List.replicate 16 0) } = .error "ForbiddenMethod" ∧
     TestModulePresentSeed (callModule testKernel (.page "tester.example") kernelTestSuite
        (some "presentSeed") { seed := some (List.replicate 16 0) }) =
       .resolved ("received expected error: " ++ "ForbiddenMethod") ∧
     (∀ resp : RespData, TestModulePresentSeed (.ok resp) =
        .rejected "expecting an error for using a forbidden method") ∧
     (∀ err : String, TestModulePresentSeed (.error err) =
        .resolved ("received expected error: " ++ err))) :=
  ⟨by decide,
    present_seed_forbidden testKernel "tester.example" (List.replicate 16 0) (by decide)⟩

/-- C8: the domain attribution a module observes equals the literal calling
page's origin string, for a direct call and unchanged when the call is
relayed through one additional module hop; the embedded `TestMirrorDomain`
accordingly resolves. -/
theorem mirror_domain_attribution (k : KernelModel) (origin relay : String) (d : ReqData)
    (hreg : kernelTestSuite ∈ k.modules) :
    callModule k (.page origin) kernelTestSuite (some "mirrorDomain") d =
      .ok { domain := some origin } ∧
    callModule k (.relayed relay (.page origin)) kernelTestSuite (some "mirrorDomain") d =
      .ok { domain := some origin } ∧
    domainAttribution (.relayed relay (.page origin)) = domainAttribution (.page origin) ∧
    TestMirrorDomain origin
        (callModule k (.page origin) kernelTestSuite (some "mirrorDomain") d) =
      .resolved ("got expected domain: " ++ origin) := by
  have h1 := callModule_mirrorDomain k (.page origin) d hreg
  have h2 := callModule_mirrorDomain k (.relayed relay (.page origin)) d hreg
  refine ⟨h1, h2, rfl, ?_⟩
  rw [h1]
  simp [TestMirrorDomain, domainAttribution]

theorem mirror_domain_attribution_witness :
    kernelTestSuite ∈ testKernel.modules ∧
    (callModule testKernel (.page "tester.example") kernelTestSuite
        (some "mirrorDomain") {} = .ok { domain := some "tester.example" } ∧
     callModule testKernel (.relayed helperModule (.page "tester.example")) kernelTestSuite
        (some "mirrorDomain") {} = .ok { domain := some "tester.example" } ∧
     domainAttribution (.relayed helperModule (.page "tester.example")) =
       domainAttribution (.page "tester.example") ∧
     TestMirrorDomain "tester.example"
        (callModule testKernel (.page "tester.example") kernelTestSuite
          (some "mirrorDomain") {}) =
       .resolved ("got expected domain: " ++ "tester.example")) :=
  ⟨by decide,
    mirror_domain_attribution testKernel "tester.example" helperModule {} (by decide)⟩

/-!
Upload/download round trip.  The content storage behind `kernel.upload` and
`kernel.download` is external, so it is modelled from the spec; the byte
comparison loop comes from `TestSecureUploadAndDownload` in the source.
-/

/-- Modelled from the spec: external content storage addressed by
identifier-shaped locators. -/
structure Store where
  blobs : List (String × List Nat)

/-- Modelled from the spec: `upload(name, bytes)` stores the bytes under a
fresh content locator and yields that locator. -/
def upload (st : Store) (_name : String) (bytes : List Nat) : String × Store :=
  let locator := "skylink" ++ toString st.blobs.length
  (locator, { blobs := (locator, bytes) :: st.blobs })

/-- Modelled from the spec: `download(locator)` yields the stored bytes, or
rejects when the locator resolves to nothing. -/
def download (st : Store) (locator : String) : Except String (List Nat) :=
  match st.blobs.lookup locator with
  | some bytes => .ok bytes
  | none => .error "download found no file for the given locator"

/-- The bytes a download settles with, `[]` on rejection. -/
def downloadedBytes (st : Store) (locator : String) : List Nat :=
  match download st locator with
  | .ok bytes => bytes
  | .error _ => []

/-- `TestSecureUploadAndDownload` from the test-methods module, generalised
from the literal `'test data'` payload to an arbitrary byte sequence: upload,
download the returned skylink, reject when the lengths differ or any index
disagrees, and resolve with the skylink otherwise. -/
def TestSecureUploadAndDownload (st : Store) (bytes : List Nat) : Settled :=
  match download (upload st "testUpload.txt" bytes).2 (upload st "testUpload.txt" bytes).1 with
  | .error err => .rejected err
  | .ok down =>
    if bytes.length ≠ down.length then
      .rejected "uploaded data and downloaded data do not match"
    else if (List.range bytes.length).any (fun i => bytes.getD i 0 != down.getD i 0) then
      .rejected "uploaded data and downloaded data do not match"
    else .resolved (upload st "testUpload.txt" bytes).1

theorem download_upload (st : Store) (nm : String) (bytes : List Nat) :
    download (upload st nm bytes).2 (upload st nm bytes).1 = .ok bytes := by
  simp [download, upload, List.lookup]

/-- C7: for every file name and every byte sequence — the empty and the
single-byte sequences included — downloading an upload yields bytes equal to
the original in length and at every index; the embedded
`TestSecureUploadAndDownload` resolves with the locator. -/
theorem upload_download_roundtrip (st : Store) (nm : String) (bytes : List Nat) :
    download (upload st nm bytes).2 (upload st nm bytes).1 = .ok bytes ∧
    (downloadedBytes (upload st nm bytes).2 (upload st nm bytes).1).length = bytes.length ∧
    (∀ i : Nat, (downloadedBytes (upload st nm bytes).2 (upload st nm bytes).1).getD i 0 =
       bytes.getD i 0) ∧
    TestSecureUploadAndDownload st bytes =
      .resolved (upload st "testUpload.txt" bytes).1 ∧
    download (upload st nm []).2 (upload st nm []).1 = .ok [] ∧
    download (upload st nm [7]).2 (upload st nm [7]).1 = .ok [7] := by
  have hdb : downloadedBytes (upload st nm bytes).2 (upload st nm bytes).1 = bytes := by
    rw [downloadedBytes, download_upload]
  refine ⟨download_upload st nm bytes, by rw [hdb], fun i => by rw [hdb], ?_,
    download_upload st nm [], download_upload st nm [7]⟩
  rw [TestSecureUploadAndDownload, download_upload]
  simp

end LibkernelTestSuite
